import Mathlib

/-!
# Verification of the `upgradable_defi` backend read model

This file gives a shallow embedding, in Lean 4, of the address-resolution and
protocol-state-aggregation code of the repository (`backend/app/chain.py` and
`backend/app/config.py`) and proves or refutes the frozen specification claims
about it.

Modelling conventions, fixed once here:

* Python `Decimal` values are modelled as exact rationals (`ℚ`).  The code runs
  with `getcontext().prec = 50` and the default `Emax = 999999`; rounding of a
  50-digit context is far below every tolerance used by the claims, so exact
  arithmetic is used except where a claim is *about* a context trap: the
  `quantize` precision trap of `_format_usd` / quantizing converters and the
  `10**decimals` power overflow are modelled explicitly as `Except` errors.
* Python `float` values are likewise modelled as exact rationals; the two
  overflow behaviours that the claims are about are modelled explicitly:
  `float(Decimal(...))` yields `inf` (without raising) once the value reaches
  the IEEE-754 double range `2^1024`, and `math.exp` raises `OverflowError`
  on a finite argument whose exponential exceeds that range (threshold
  `ln(DBL_MAX) ≈ 709.78`, modelled conservatively as `710`; every input
  considered below is many orders of magnitude away from the threshold).
* A failed on-chain read (the `_call_fn` / `_safe_call` chokepoint returning
  its default) is modelled by `Option`: `none` is a failed read, and an
  explicit `getD` reproduces a non-`None` `default=` argument.
* Python `None`-propagating helpers become `Option`-valued functions;
  functions that can raise become `Except Unit`-valued.
-/

/-! ## Liquidity mining: `get_liquidity_mining` / `get_liquidity_mining_account`

Both methods of `backend/app/chain.py` (lines 673–685 and 729–741) inline the
very same apr/apy computation verbatim:

```python
apr = None
apy = None
if (reward_rate is not None and total_staked is not None and total_staked > 0
        and rewards_decimals is not None and staking_decimals is not None):
    rewards_per_year = Decimal(reward_rate) * SECONDS_PER_YEAR / Decimal(10**rewards_decimals)
    staked_value = Decimal(total_staked) / Decimal(10**staking_decimals)
    apr = float(rewards_per_year / staked_value)
    apy = math.exp(apr) - 1
```
-/

/-- `SECONDS_PER_YEAR = 365 * 24 * 3600` from `chain.py`. -/
def SECONDS_PER_YEAR : ℕ := 365 * 24 * 3600

/-- Smallest magnitude at which `float(Decimal(...))` overflows to `inf`
(the IEEE-754 double range; conversion overflows to `inf`, it does not raise). -/
def FLOAT_INF_BOUND : ℚ := 2 ^ 1024

/-- Magnitude at which `math.exp` raises `OverflowError` on a finite `float`
argument (`ln(DBL_MAX) ≈ 709.78`, modelled conservatively as `710`). -/
def EXP_OVERFLOW_BOUND : ℚ := 710

/-- Outcome of the inlined apr/apy computation of `get_liquidity_mining` and
`get_liquidity_mining_account`. -/
inductive MiningYield where
  /-- The guard failed (`reward_rate`/`total_staked`/decimals missing or
  `total_staked ≤ 0`): `apr = None` and `apy = None`. -/
  | skipped : MiningYield
  /-- `float(rewards_per_year / staked_value)` overflowed the double range:
  `apr = inf`, and `apy = math.exp(inf) - 1 = inf` (no exception). -/
  | overflowInf : MiningYield
  /-- `apr` is a finite float but `math.exp(apr)` raises `OverflowError`,
  which no caller catches: the whole endpoint call raises. -/
  | expRaised : MiningYield
  /-- `apr` is the given (exactly modelled) finite value and
  `apy = math.exp(apr) - 1`. -/
  | computed : ℚ → MiningYield
deriving DecidableEq, Repr

/-- The apr/apy computation shared verbatim by `get_liquidity_mining`
(`chain.py:673-685`) and `get_liquidity_mining_account` (`chain.py:729-741`),
with a `none` input standing for a failed `rewardRate` / `totalSupply` /
`decimals` read. -/
def mining_apr_apy (reward_rate total_staked : Option ℤ)
    (rewards_decimals staking_decimals : Option ℕ) : MiningYield :=
  match reward_rate, total_staked, rewards_decimals, staking_decimals with
  | some rr, some ts, some rd, some sd =>
    if 0 < ts then
      let rewards_per_year : ℚ := (rr : ℚ) * (SECONDS_PER_YEAR : ℚ) / 10 ^ rd
      let staked_value : ℚ := (ts : ℚ) / 10 ^ sd
      let apr : ℚ := rewards_per_year / staked_value
      if FLOAT_INF_BOUND ≤ apr then .overflowInf
      else if EXP_OVERFLOW_BOUND ≤ apr then .expRaised
      else .computed apr
    else .skipped
  | _, _, _, _ => .skipped

/-! ## Address resolution (`backend/app/config.py`) -/

/-- Python `str.lower()`, character-wise (`String.toLower` does not reduce in
the kernel; the addresses involved are ASCII hex strings, on which the two
agree). -/
def lowerStr (s : String) : String := ⟨s.data.map Char.toLower⟩

/-- Python `str.upper()`, character-wise (see `lowerStr`). -/
def upperStr (s : String) : String := ⟨s.data.map Char.toUpper⟩

/-- One parsed `CREATE` transaction of a deployment trace
(`_extract_addresses_from_run_json`, `config.py:87-113`).  A JSON value that
fails the source's `isinstance(..., str)` check is modelled as `none`. -/
structure CreateTx where
  contractName : Option String
  contractAddress : Option String
  arguments : List (Option String)
deriving DecidableEq, Repr

/-- `impls_by_name[name]`: addresses, in trace order, of implementation
deployments carrying that (non-empty) `contractName` (`config.py:91-100`). -/
def impls_by_name (creates : List CreateTx) (name : String) : List String :=
  creates.filterMap fun t =>
    match t.contractName, t.contractAddress with
    | some n, some a => if n = name ∧ n ≠ "" then some a else none
    | _, _ => none

/-- `proxies_by_impl[implLower]`: proxy addresses, in trace order, of
`ERC1967Proxy` `CREATE` records whose first constructor argument lowercases to
`implLower` (`config.py:102-113`). -/
def proxies_by_impl (creates : List CreateTx) (implLower : String) : List String :=
  creates.filterMap fun t =>
    if t.contractName = some "ERC1967Proxy" then
      match t.contractAddress, t.arguments with
      | some proxy, some a0 :: _ => if lowerStr a0 = implLower then some proxy else none
      | _, _ => none
    else none

/-- `addresses_for(contract_name)` (`config.py:115-121`): map every named
implementation through the proxy index; fall back to the implementation
addresses themselves only when the combined proxy list is empty. -/
def addresses_for (creates : List CreateTx) (contract_name : String) : List String :=
  let impls := impls_by_name creates contract_name
  let result := (impls.map fun impl => proxies_by_impl creates (lowerStr impl)).flatten
  if result = [] then impls else result

/-- The `ResolvedAddresses` dictionary shape produced by both
`_extract_addresses_from_run_json` and `_load_addresses_file`. -/
structure Addresses where
  comptroller : Option String
  markets : List String
  liquidityMining : List String
  priceOracle : Option String
  governor : Option String
  protocolTimelock : Option String
deriving DecidableEq, Repr

/-- Python truthiness of an optional string (`None` and `""` are falsy). -/
def truthy : Option String → Bool
  | none => false
  | some s => s ≠ ""

/-- Score of one discovered candidate (`load_addresses`, `config.py:179-184`). -/
def score (a : Addresses) : ℕ :=
  (if truthy a.comptroller then 100 else 0) + (if truthy a.priceOracle then 100 else 0)
    + a.markets.length + a.liquidityMining.length

/-- Best-scoring discovered candidate, earlier candidates winning ties
(`best_score` starts at `-1` and only a strictly greater score replaces;
`load_addresses`, `config.py:173-187`). -/
def discovered_best (candidates : List (Option Addresses)) : Option Addresses :=
  (candidates.filterMap id).foldl
    (fun best a =>
      match best with
      | none => some a
      | some b => if score b < score a then some a else some b)
    none

/-- `load_addresses` (`config.py:170-198`), parametric in the out-of-core I/O:
`autoDiscover` is the `AUTO_DISCOVER_ADDRESSES != "0"` switch, `candidates`
holds the per-trace results of `_extract_addresses_from_run_json` (`none` =
unparseable or without `CREATE` records; the current
`_find_run_json_candidates` supplies at most one element), and `config` is the
result of `_load_addresses_file` (`none` = absent, unreadable or not a JSON
object).  `.error ()` is the final `FileNotFoundError` (the spec's
`ResolutionError`).  Note that a parsed config dict is truthy in Python even
when all its values are `None`, so `some c` is returned as-is. -/
def load_addresses (autoDiscover : Bool) (candidates : List (Option Addresses))
    (config : Option Addresses) : Except Unit Addresses :=
  match
    (if autoDiscover then
      match discovered_best candidates with
      | some best =>
        if truthy best.comptroller && truthy best.priceOracle then some best else none
      | none => none
    else none) with
  | some best => .ok best
  | none =>
    match config with
    | some c => .ok c
    | none => .error ()

/-! ## DecimalMath conversion helpers (`backend/app/chain.py:99-167`)

The reader runs with `getcontext().prec = 50` and the default decimal context
(`Emax = 999999`; `InvalidOperation` and `Overflow` trapped, i.e. raising).
`quantize` raises `InvalidOperation` whenever the quantized result needs a
coefficient of more than 50 digits; `Decimal(10) ** decimals` raises
`Overflow` when `decimals` exceeds `Emax`; and every `Decimal` division or
multiplication raises `Overflow` once its result's magnitude reaches
`10^(Emax+1)` (constructing a `Decimal` from an `int` is exact and never
raises).  All three traps are modelled as `.error ()`.  A bare `float(...)`
conversion (no `quantize` argument) rounds to a double, overflowing to `inf`
WITHOUT raising; it is modelled by the exact rational. -/

/-- `PRICE_DECIMALS = Decimal(10**8)` from `chain.py`. -/
def PRICE_DECIMALS : ℚ := 10 ^ 8

/-- `WAD = Decimal(10**18)` from `chain.py`. -/
def WAD : ℚ := 10 ^ 18

/-- Largest context exponent: `Emax = 999999` of the default decimal context. -/
def EMAX : ℕ := 999999

/-- The trapped `decimal.Overflow`: a `Decimal` arithmetic result whose
magnitude reaches `10^(Emax+1)` has adjusted exponent above `Emax` and
raises.  (The round-up of a value within half an ulp below the bound is not
modelled; every input considered here is far from the boundary.) -/
def decOverflows (v : ℚ) : Bool := 10 ^ (EMAX + 1) ≤ |v|

/-- `prec = 50` digits: a quantized coefficient of at least `10^50` needs more
than 50 digits and raises `InvalidOperation`. -/
def PREC_LIMIT : ℕ := 10 ^ 50

/-- `ROUND_HALF_EVEN` (the context default used by `quantize`), as a map from
an exact rational to the integer coefficient. -/
def roundHalfEven (q : ℚ) : ℤ :=
  if q - ⌊q⌋ < 1 / 2 then ⌊q⌋
  else if 1 / 2 < q - ⌊q⌋ then ⌊q⌋ + 1
  else if ⌊q⌋ % 2 = 0 then ⌊q⌋ else ⌊q⌋ + 1

/-- `_to_decimal` (`chain.py:99-102`). -/
def _to_decimal (value : Option ℤ) : Option ℚ :=
  value.map fun v => (v : ℚ)

/-- `_format_usd` (`chain.py:109-112`): quantize to six decimal places and
render as a string; the decimal string is abstracted to the quantized rational
it denotes.  Raises once the quantized coefficient reaches 50 digits. -/
def _format_usd (value : Option ℚ) : Except Unit (Option ℚ) :=
  match value with
  | none => .ok none
  | some v =>
    if PREC_LIMIT ≤ (roundHalfEven (v * 10 ^ 6)).natAbs then .error ()
    else .ok (some ((roundHalfEven (v * 10 ^ 6) : ℚ) / 10 ^ 6))

/-- `_amount_to_usd` (`chain.py:114-119`): `None` in, `None` out, checked
before any arithmetic; then, in evaluation order, `Decimal(10) ** decimals`
raises `Overflow` past `Emax`, and the `amount` quotient, the `price`
quotient and their product each raise `Overflow` at magnitude
`10^(Emax+1)`. -/
def _amount_to_usd (amount : Option ℤ) (decimals : Option ℕ) (price : Option ℤ) :
    Except Unit (Option ℚ) :=
  match amount, decimals, price with
  | some a, some d, some p =>
    if EMAX < d then .error ()
    else if decOverflows ((a : ℚ) / 10 ^ d) then .error ()
    else if decOverflows ((p : ℚ) / PRICE_DECIMALS) then .error ()
    else if decOverflows ((a : ℚ) / 10 ^ d * ((p : ℚ) / PRICE_DECIMALS)) then .error ()
    else .ok (some ((a : ℚ) / 10 ^ d * ((p : ℚ) / PRICE_DECIMALS)))
  | _, _, _ => .ok none

/-- `_price_to_usd` (`chain.py:130-133`): the `price / PRICE_DECIMALS`
division raises `Overflow` at magnitude `10^(Emax+1)`. -/
def _price_to_usd (price : Option ℤ) : Except Unit (Option ℚ) :=
  match price with
  | none => .ok none
  | some p =>
    if decOverflows ((p : ℚ) / PRICE_DECIMALS) then .error ()
    else .ok (some ((p : ℚ) / PRICE_DECIMALS))

/-- `_rate_to_decimal` (`chain.py:135-138`): the `rate / WAD` division
raises `Overflow` at magnitude `10^(Emax+1)`. -/
def _rate_to_decimal (rate : Option ℤ) : Except Unit (Option ℚ) :=
  match rate with
  | none => .ok none
  | some r =>
    if decOverflows ((r : ℚ) / WAD) then .error ()
    else .ok (some ((r : ℚ) / WAD))

/-- `_decimal_to_pct` (`chain.py:140-143`): the `× 100` multiplication
raises `Overflow` at magnitude `10^(Emax+1)`. -/
def _decimal_to_pct (value : Option ℚ) : Except Unit (Option ℚ) :=
  match value with
  | none => .ok none
  | some v =>
    if decOverflows (v * 100) then .error ()
    else .ok (some (v * 100))

/-- `_to_float` (`chain.py:145-150`): the optional `quantize` pattern string
(`"0.000001"` and friends) is modelled by its number of decimal places; the
quantize step can raise the 50-digit precision trap, the final `float(...)`
conversion cannot raise (it is modelled by the exact rational). -/
def _to_float (value : Option ℚ) (quantize : Option ℕ) : Except Unit (Option ℚ) :=
  match value with
  | none => .ok none
  | some v =>
    match quantize with
    | none => .ok (some v)
    | some dp =>
      if PREC_LIMIT ≤ (roundHalfEven (v * 10 ^ dp)).natAbs then .error ()
      else .ok (some ((roundHalfEven (v * 10 ^ dp) : ℚ) / 10 ^ dp))

/-- `_amount_to_token` (`chain.py:152-155`): `Decimal(amount) / (Decimal(10)
** decimals)` via `_to_float` with no quantization; the power raises past
`Emax` and the quotient raises at magnitude `10^(Emax+1)`. -/
def _amount_to_token (amount : Option ℤ) (decimals : Option ℕ) :
    Except Unit (Option ℚ) :=
  match amount, decimals with
  | some a, some d =>
    if EMAX < d then .error ()
    else if decOverflows ((a : ℚ) / 10 ^ d) then .error ()
    else _to_float (some ((a : ℚ) / 10 ^ d)) none
  | _, _ => .ok none

/-- `_wad_to_float` (`chain.py:157-160`): the `value / WAD` division raises
`Overflow` at magnitude `10^(Emax+1)` before `_to_float` runs. -/
def _wad_to_float (value : Option ℤ) (quantize : Option ℕ) : Except Unit (Option ℚ) :=
  match value with
  | none => .ok none
  | some v =>
    if decOverflows ((v : ℚ) / WAD) then .error ()
    else _to_float (some ((v : ℚ) / WAD)) quantize

/-- `_token_to_usd_from_price_usd` (`chain.py:162-167`). -/
def _token_to_usd_from_price_usd (amount price_usd : Option ℚ) : Option ℚ :=
  match amount, price_usd with
  | some a, some p => some (a * p)
  | _, _ => none

/-! ## `get_markets` (`backend/app/chain.py:169-290`)

The per-market block of `get_markets` is modelled as a function of the raw
read results.  All reads go through the `_call_fn` chokepoint, so each is an
`Option`; `totalReserves` and `reserveFactorMantissa` are requested with
`default=0`, which the model reproduces with `getD 0` exactly where the code
consumes the value.  The final `float(...)` conversions and fixed-place
quantizations of the serialization boundary are modelled by the exact
rationals they round (none of the claims below depends on sub-ulp rounding,
and in-range values do not hit the context traps modelled for C8). -/

/-- Python `int(Decimal)` truncation toward zero. -/
def int_trunc (q : ℚ) : ℤ := q.num / q.den

/-- `_amount_to_token` in its trap-free regime (`chain.py:152-155`):
`amount / 10^decimals`, `None` propagating. -/
def token_units (amount : Option ℤ) (decimals : Option ℕ) : Option ℚ :=
  match amount, decimals with
  | some a, some d => some ((a : ℚ) / 10 ^ d)
  | _, _ => none

/-- `_amount_to_usd` in its trap-free regime (`chain.py:114-119`). -/
def usd_units (amount : Option ℤ) (decimals : Option ℕ) (price : Option ℤ) : Option ℚ :=
  match amount, decimals, price with
  | some a, some d, some p => some ((a : ℚ) / 10 ^ d * ((p : ℚ) / PRICE_DECIMALS))
  | _, _, _ => none

/-- The raw per-market read results gathered by `get_markets`
(`chain.py:172-238`): `none` is a failed `_call_fn` read.  A failed
`underlying` read leaves no ERC-20 handle, which surfaces as failed `symbol`
and `decimals` reads, so those two stand in for the `underlying`/ERC-20
chain.  `reserveFactor` (read with `default=0`) is forwarded, defaulted, as
an argument of the supply-rate calls whose responses are the `...Call`
fields. -/
structure MarketReads where
  symbol : Option String
  decimals : Option ℕ
  totalSupply : Option ℤ
  totalBorrows : Option ℤ
  /-- `_call_fn(market, "totalReserves", default=0)`: `none` = failed call,
  which the code silently replaces by `0`. -/
  totalReserves : Option ℤ
  cash : Option ℤ
  exchangeRate : Option ℤ
  /-- `_call_fn(market, "reserveFactorMantissa", default=0)`. -/
  reserveFactor : Option ℤ
  /-- the `interestRateModel` read succeeded and a rate-model handle exists. -/
  hasRateModel : Bool
  borrowRatePerYearCall : Option ℤ
  supplyRatePerYearCall : Option ℤ
  borrowRatePerSecondCall : Option ℤ
  supplyRatePerSecondCall : Option ℤ
  /-- `_call_fn(rate_model, "SECONDS_PER_YEAR", default=31_536_000)`. -/
  secondsPerYearCall : Option ℤ
  /-- first component of `getMarketConfiguration` (`none` when the
  comptroller is unbound or the call failed). -/
  collateralFactor : Option ℤ
  isListed : Option Bool
  /-- `getAssetPrice(underlying)` through the oracle. -/
  price : Option ℤ
deriving DecidableEq, Repr

/-- The rate-model block guard of `chain.py:189`:
`if rate_model and cash is not None and total_borrows is not None`. -/
def rates_guard (r : MarketReads) : Bool :=
  r.hasRateModel && r.cash.isSome && r.totalBorrows.isSome

/-- Borrow rate per year (`chain.py:190-211`): the `getBorrowRatePerYear`
response, with the per-second fallback `rate * SECONDS_PER_YEAR` when it
fails. -/
def borrow_rate_year (r : MarketReads) : Option ℤ :=
  if rates_guard r then
    match r.borrowRatePerYearCall with
    | some v => some v
    | none =>
      match r.borrowRatePerSecondCall with
      | some rps => some (rps * r.secondsPerYearCall.getD 31536000)
      | none => none
  else none

/-- Supply rate per year (`chain.py:197-223`), same shape as
`borrow_rate_year`. -/
def supply_rate_year (r : MarketReads) : Option ℤ :=
  if rates_guard r then
    match r.supplyRatePerYearCall with
    | some v => some v
    | none =>
      match r.supplyRatePerSecondCall with
      | some rps => some (rps * r.secondsPerYearCall.getD 31536000)
      | none => none
  else none

/-- Utilization (`chain.py:225-229`):
`totalBorrows / (cash + totalBorrows - totalReserves)` when the denominator
is positive (with the failed-reserves read already defaulted to zero). -/
def utilization_of (r : MarketReads) : Option ℚ :=
  match r.cash, r.totalBorrows with
  | some c, some b =>
    if 0 < c + b - r.totalReserves.getD 0 then
      some ((b : ℚ) / ((c + b - r.totalReserves.getD 0 : ℤ) : ℚ))
    else none
  | _, _ => none

/-- `supply_underlying_raw` (`chain.py:244-246`):
`int(totalSupply * exchangeRate / WAD)`. -/
def supply_underlying_raw (r : MarketReads) : Option ℤ :=
  match r.totalSupply, r.exchangeRate with
  | some ts, some ex => some (int_trunc ((ts : ℚ) * (ex : ℚ) / WAD))
  | _, _ => none

/-- `supply_underlying` in underlying units (`chain.py:247-250`). -/
def supply_underlying_of (r : MarketReads) : Option ℚ :=
  match r.totalSupply, r.exchangeRate, r.decimals with
  | some ts, some ex, some d => some ((ts : ℚ) * (ex : ℚ) / WAD / 10 ^ d)
  | _, _, _ => none

/-- One output row of `get_markets` (`chain.py:264-289`); the duplicated
aliases (`totalSupplyUnderlying`, `priceUsd`, the percentage views of the
rates) carry the same payloads as the fields kept here. -/
structure MarketView where
  symbol : Option String
  decimals : Option ℕ
  totalSupply : Option ℚ
  totalSupplyUsd : Option ℚ
  totalBorrows : Option ℚ
  totalBorrowsUsd : Option ℚ
  totalReserves : Option ℚ
  cash : Option ℚ
  exchangeRate : Option ℚ
  utilization : Option ℚ
  borrowRatePerYear : Option ℚ
  supplyRatePerYear : Option ℚ
  price : Option ℚ
  collateralFactor : Option ℚ
  isListed : Option Bool
deriving DecidableEq, Repr

/-- The per-market body of `get_markets` (`chain.py:171-289`). -/
def get_market_view (r : MarketReads) : MarketView where
  symbol := r.symbol
  decimals := r.decimals
  totalSupply := supply_underlying_of r
  totalSupplyUsd := usd_units (supply_underlying_raw r) r.decimals r.price
  totalBorrows := token_units r.totalBorrows r.decimals
  totalBorrowsUsd := usd_units r.totalBorrows r.decimals r.price
  totalReserves := token_units (some (r.totalReserves.getD 0)) r.decimals
  cash := token_units r.cash r.decimals
  exchangeRate := r.exchangeRate.map fun exr => (exr : ℚ) / WAD
  utilization := utilization_of r
  borrowRatePerYear := (borrow_rate_year r).map fun v => (v : ℚ) / WAD
  supplyRatePerYear := (supply_rate_year r).map fun v => (v : ℚ) / WAD
  price := r.price.map fun p => (p : ℚ) / PRICE_DECIMALS
  collateralFactor := r.collateralFactor.map fun v => (v : ℚ) / WAD
  isListed := r.isListed

/-! ## `get_markets_summary` (`backend/app/chain.py:292-322`) -/

/-- The fields of one `get_markets` row that the summary pass consumes
(`chain.py:299-308`; the `market.get(key, fallback)` calls always find the
primary key, since `get_markets` populates every row with it). -/
structure MarketRow where
  totalSupplyUsd : Option ℚ
  totalBorrowsUsd : Option ℚ
  collateralFactor : Option ℚ
  supplyRatePerYear : Option ℚ
deriving DecidableEq, Repr

/-- The four running sums of `get_markets_summary`, before the final
`_format_usd` serialization. -/
structure MarketsSummary where
  totalSupplyUsd : ℚ
  totalEarningUsd : ℚ
  totalBorrowUsd : ℚ
  totalCollateralUsd : ℚ
deriving DecidableEq, Repr

/-- Loop body of `get_markets_summary` (`chain.py:299-315`): `or 0` on the
collateral factor and supply rate, `is not None` checks on the USD figures. -/
def summary_step (acc : MarketsSummary) (m : MarketRow) : MarketsSummary :=
  let cf := m.collateralFactor.getD 0
  let sr := m.supplyRatePerYear.getD 0
  let acc1 :=
    match m.totalSupplyUsd with
    | some s =>
      { acc with totalSupplyUsd := acc.totalSupplyUsd + s,
                 totalCollateralUsd := acc.totalCollateralUsd + s * cf,
                 totalEarningUsd := acc.totalEarningUsd + s * sr }
    | none => acc
  match m.totalBorrowsUsd with
  | some b => { acc1 with totalBorrowUsd := acc1.totalBorrowUsd + b }
  | none => acc1

/-- `get_markets_summary` (`chain.py:292-322`). -/
def get_markets_summary (markets : List MarketRow) : MarketsSummary :=
  markets.foldl summary_step ⟨0, 0, 0, 0⟩

/-- Supply-USD contribution of one row to the summary (zero when missing). -/
def row_supply_usd (m : MarketRow) : ℚ := m.totalSupplyUsd.getD 0

/-- Borrow-USD contribution of one row to the summary (zero when missing). -/
def row_borrow_usd (m : MarketRow) : ℚ := m.totalBorrowsUsd.getD 0

/-- Collateral-weighted contribution of one row: `supply × collateralFactor`,
with a missing collateral factor treated as zero and a missing supply
contributing nothing. -/
def row_collateral_usd (m : MarketRow) : ℚ :=
  match m.totalSupplyUsd with
  | some s => s * m.collateralFactor.getD 0
  | none => 0

/-- Yield-weighted contribution of one row: `supply × supplyRatePerYear`,
with a missing rate treated as zero and a missing supply contributing
nothing. -/
def row_earning_usd (m : MarketRow) : ℚ :=
  match m.totalSupplyUsd with
  | some s => s * m.supplyRatePerYear.getD 0
  | none => 0

/-! ## `get_account` (`backend/app/chain.py:387-502`) and
`get_account_overview` (`backend/app/chain.py:324-385`) -/

/-- The fields of one account position row (`chain.py:442-464`) consumed by
the health-factor and overview aggregation passes. -/
structure AccountPos where
  supplyUnderlying : Option ℚ
  borrowBalance : Option ℚ
  priceUsd : Option ℚ
  collateralFactor : Option ℚ
  supplyRatePerYear : Option ℚ
  borrowRatePerYear : Option ℚ
deriving DecidableEq, Repr

/-- Loop body of the `Σ(supplyUSD × collateralFactor)` / `Σ(borrowUSD)`
accumulation of `get_account` (`chain.py:466-476`): a position whose USD
value is `None` is skipped, a missing collateral factor is `or 0`-defaulted. -/
def account_step (acc : ℚ × ℚ) (pos : AccountPos) : ℚ × ℚ :=
  ((match _token_to_usd_from_price_usd pos.supplyUnderlying pos.priceUsd with
    | some s => acc.1 + s * pos.collateralFactor.getD 0
    | none => acc.1),
   (match _token_to_usd_from_price_usd pos.borrowBalance pos.priceUsd with
    | some b => acc.2 + b
    | none => acc.2))

/-- The two totals accumulated by the loop above. -/
def account_totals (positions : List AccountPos) : ℚ × ℚ :=
  positions.foldl account_step (0, 0)

/-- `health_factor` (`chain.py:478-480`): `None` unless the total borrow USD
is positive, else the ratio of the two accumulated totals. -/
def health_factor (positions : List AccountPos) : Option ℚ :=
  if 0 < (account_totals positions).2 then
    some ((account_totals positions).1 / (account_totals positions).2)
  else none

/-- Risk-weighted collateral USD contributed by one position (zero when its
supply USD value is unavailable). -/
def pos_collateral_usd (p : AccountPos) : ℚ :=
  match _token_to_usd_from_price_usd p.supplyUnderlying p.priceUsd with
  | some s => s * p.collateralFactor.getD 0
  | none => 0

/-- Borrow USD contributed by one position (zero when unavailable). -/
def pos_borrow_usd (p : AccountPos) : ℚ :=
  (_token_to_usd_from_price_usd p.borrowBalance p.priceUsd).getD 0

/-- Supply USD weight of one position (zero when unavailable). -/
def pos_supply_usd (p : AccountPos) : ℚ :=
  (_token_to_usd_from_price_usd p.supplyUnderlying p.priceUsd).getD 0

/-- `supplyUSD × supplyRatePerYear` of one position (`or 0` on the rate,
nothing when the USD value is unavailable). -/
def pos_supply_weighted_rate (p : AccountPos) : ℚ :=
  match _token_to_usd_from_price_usd p.supplyUnderlying p.priceUsd with
  | some s => s * p.supplyRatePerYear.getD 0
  | none => 0

/-- `borrowUSD × borrowRatePerYear` of one position. -/
def pos_borrow_weighted_rate (p : AccountPos) : ℚ :=
  match _token_to_usd_from_price_usd p.borrowBalance p.priceUsd with
  | some b => b * p.borrowRatePerYear.getD 0
  | none => 0

/-- Loop body of the weighted accumulators of `get_account_overview`
(`chain.py:328-351`), in the order (supply total, weighted supply rate,
borrow total, weighted borrow rate); the collateral accumulator of the same
loop is the one already modelled by `account_totals`. -/
def overview_step (acc : ℚ × ℚ × ℚ × ℚ) (pos : AccountPos) : ℚ × ℚ × ℚ × ℚ :=
  ((match _token_to_usd_from_price_usd pos.supplyUnderlying pos.priceUsd with
    | some s => acc.1 + s
    | none => acc.1),
   (match _token_to_usd_from_price_usd pos.supplyUnderlying pos.priceUsd with
    | some s => acc.2.1 + s * pos.supplyRatePerYear.getD 0
    | none => acc.2.1),
   (match _token_to_usd_from_price_usd pos.borrowBalance pos.priceUsd with
    | some b => acc.2.2.1 + b
    | none => acc.2.2.1),
   (match _token_to_usd_from_price_usd pos.borrowBalance pos.priceUsd with
    | some b => acc.2.2.2 + b * pos.borrowRatePerYear.getD 0
    | none => acc.2.2.2))

/-- The four totals accumulated by the loop above. -/
def overview_totals (positions : List AccountPos) : ℚ × ℚ × ℚ × ℚ :=
  positions.foldl overview_step (0, 0, 0, 0)

/-- `netSupplyAPR` and `netBorrowAPR` (`chain.py:353-358`): weighted rate
over total weight, defined as zero when the weight total is not positive. -/
def net_aprs (positions : List AccountPos) : ℚ × ℚ :=
  ((if 0 < (overview_totals positions).1 then
      (overview_totals positions).2.1 / (overview_totals positions).1 else 0),
   (if 0 < (overview_totals positions).2.2.1 then
      (overview_totals positions).2.2.2 / (overview_totals positions).2.2.1 else 0))

/-! ## `get_wallet_balances` (`backend/app/chain.py:559-602`) -/

/-- Last-write-wins lookup in the `symbol.upper() → underlying` dict built at
`chain.py:564-570` (a later market with the same uppercased symbol
overwrites an earlier one). -/
def lookup_last (m : List (String × String)) (k : String) : Option String :=
  ((m.filter fun e => e.1 = k).getLast?).map fun e => e.2

/-- The asset-filter selection of `get_wallet_balances` (`chain.py:572-579`):
each filter entry resolves as a known market symbol (matched after
uppercasing), else as a raw address when `w3.is_address` (abstracted as
`isAddr`) accepts it, else is silently dropped. -/
def select_assets (m : List (String × String)) (isAddr : String → Bool)
    (assets : List String) : List (String × String) :=
  assets.flatMap fun a =>
    match lookup_last m (upperStr a) with
    | some addr => [(upperStr a, addr)]
    | none => if isAddr a then [(a, a)] else []

/-- One row of the `balances` list (`chain.py:591-600`). -/
structure WalletBalance where
  symbol : Option String
  underlying : String
  decimals : Option ℕ
  balance : Option ℚ
  price : Option ℚ
deriving DecidableEq, Repr

/-- The balance rows of `get_wallet_balances` (`chain.py:584-600`),
parametric in the per-address ERC-20 reads (`symbolOf`, `decimalsOf`,
`balanceOf`) and oracle read (`priceOf`), each `none` on failure; exactly one
row per selected entry. -/
def get_wallet_balances (m : List (String × String)) (isAddr : String → Bool)
    (symbolOf : String → Option String) (decimalsOf : String → Option ℕ)
    (balanceOf : String → Option ℤ) (priceOf : String → Option ℤ)
    (assets : List String) : List WalletBalance :=
  (select_assets m isAddr assets).map fun e =>
    { symbol := symbolOf e.2
      underlying := e.2
      decimals := decimalsOf e.2
      balance := token_units (balanceOf e.2) (decimalsOf e.2)
      price := (priceOf e.2).map fun p => (p : ℚ) / PRICE_DECIMALS }

/-! ### Facts about `ROUND_HALF_EVEN` used below -/

/-- Rounding an integer is the identity. -/
lemma roundHalfEven_intCast (n : ℤ) : roundHalfEven (n : ℚ) = n := by
  unfold roundHalfEven
  rw [Int.floor_intCast]
  norm_num

/-- Rounding moves a value by at most one. -/
lemma abs_roundHalfEven_le (x : ℚ) : |(roundHalfEven x : ℚ)| ≤ |x| + 1 := by
  have h1 : (⌊x⌋ : ℚ) ≤ x := Int.floor_le x
  have h2 : x - 1 < (⌊x⌋ : ℚ) := Int.sub_one_lt_floor x
  have h3 : -|x| ≤ x := neg_abs_le x
  have h4 : x ≤ |x| := le_abs_self x
  unfold roundHalfEven
  split_ifs <;> rw [abs_le] <;> constructor <;> push_cast <;> linarith

/-- Values below `10^44` in magnitude quantize to a coefficient within the
50-digit precision. -/
lemma roundHalfEven_natAbs_lt (v : ℚ) (h : |v| ≤ 10 ^ 44 - 1) :
    (roundHalfEven (v * 10 ^ 6)).natAbs < PREC_LIMIT := by
  have hb := abs_roundHalfEven_le (v * 10 ^ 6)
  have hm : |v * 10 ^ 6| ≤ (10 ^ 44 - 1) * 10 ^ 6 := by
    rw [abs_mul, show |(10 : ℚ) ^ 6| = 10 ^ 6 by norm_num]
    exact mul_le_mul_of_nonneg_right h (by norm_num)
  have hcast : ((roundHalfEven (v * 10 ^ 6)).natAbs : ℚ) = |(roundHalfEven (v * 10 ^ 6) : ℚ)| := by
    rw [Int.cast_natAbs, Int.cast_abs]
  have hq : ((roundHalfEven (v * 10 ^ 6)).natAbs : ℚ) < ((PREC_LIMIT : ℕ) : ℚ) := by
    rw [hcast, show ((PREC_LIMIT : ℕ) : ℚ) = 10 ^ 50 by norm_num [PREC_LIMIT]]
    calc |(roundHalfEven (v * 10 ^ 6) : ℚ)| ≤ |v * 10 ^ 6| + 1 := hb
      _ ≤ (10 ^ 44 - 1) * 10 ^ 6 + 1 := by linarith
      _ < 10 ^ 50 := by norm_num
  exact_mod_cast hq

/-! ### Fold-to-sum lemmas for the aggregation loops -/

/-- The summary fold, started anywhere, adds the four per-row map-sums. -/
lemma foldl_summary_step (ms : List MarketRow) (acc : MarketsSummary) :
    ms.foldl summary_step acc =
      ⟨acc.totalSupplyUsd + (ms.map row_supply_usd).sum,
       acc.totalEarningUsd + (ms.map row_earning_usd).sum,
       acc.totalBorrowUsd + (ms.map row_borrow_usd).sum,
       acc.totalCollateralUsd + (ms.map row_collateral_usd).sum⟩ := by
  induction ms generalizing acc with
  | nil => simp
  | cons m ms ih =>
    rw [List.foldl_cons, ih]
    obtain ⟨a, b, c, d⟩ := acc
    obtain ⟨msup, mbor, mcf, msr⟩ := m
    simp only [List.map_cons, List.sum_cons, summary_step, row_supply_usd, row_earning_usd,
      row_borrow_usd, row_collateral_usd]
    cases msup <;> cases mbor <;>
      simp [MarketsSummary.mk.injEq, add_assoc, add_left_comm, add_comm]

/-- The `get_account` fold, started anywhere, adds the two per-position
map-sums. -/
lemma foldl_account_step (ps : List AccountPos) (acc : ℚ × ℚ) :
    ps.foldl account_step acc =
      (acc.1 + (ps.map pos_collateral_usd).sum, acc.2 + (ps.map pos_borrow_usd).sum) := by
  induction ps generalizing acc with
  | nil => simp
  | cons p ps ih =>
    rw [List.foldl_cons, ih]
    obtain ⟨a, b⟩ := acc
    simp only [List.map_cons, List.sum_cons, account_step, pos_collateral_usd, pos_borrow_usd]
    cases _token_to_usd_from_price_usd p.supplyUnderlying p.priceUsd <;>
      cases _token_to_usd_from_price_usd p.borrowBalance p.priceUsd <;>
      simp [Prod.ext_iff, add_assoc, add_left_comm, add_comm]

/-- The totals of `get_account` are the two per-position sums. -/
lemma account_totals_eq (ps : List AccountPos) :
    account_totals ps = ((ps.map pos_collateral_usd).sum, (ps.map pos_borrow_usd).sum) := by
  unfold account_totals
  rw [foldl_account_step]
  simp

/-- The `get_account_overview` fold, started anywhere, adds the four
per-position map-sums. -/
lemma foldl_overview_step (ps : List AccountPos) (acc : ℚ × ℚ × ℚ × ℚ) :
    ps.foldl overview_step acc =
      (acc.1 + (ps.map pos_supply_usd).sum,
       acc.2.1 + (ps.map pos_supply_weighted_rate).sum,
       acc.2.2.1 + (ps.map pos_borrow_usd).sum,
       acc.2.2.2 + (ps.map pos_borrow_weighted_rate).sum) := by
  induction ps generalizing acc with
  | nil => simp
  | cons p ps ih =>
    rw [List.foldl_cons, ih]
    obtain ⟨a, b, c, d⟩ := acc
    simp only [List.map_cons, List.sum_cons, overview_step, pos_supply_usd,
      pos_supply_weighted_rate, pos_borrow_usd, pos_borrow_weighted_rate]
    cases _token_to_usd_from_price_usd p.supplyUnderlying p.priceUsd <;>
      cases _token_to_usd_from_price_usd p.borrowBalance p.priceUsd <;>
      simp [Prod.ext_iff, add_assoc, add_left_comm, add_comm]

/-- The overview totals are the four per-position sums. -/
lemma overview_totals_eq (ps : List AccountPos) :
    overview_totals ps =
      ((ps.map pos_supply_usd).sum, (ps.map pos_supply_weighted_rate).sum,
       (ps.map pos_borrow_usd).sum, (ps.map pos_borrow_weighted_rate).sum) := by
  unfold overview_totals
  rw [foldl_overview_step]
  simp

/-- A magnitude below the overflow bound does not trap. -/
lemma decOverflows_eq_false {v : ℚ} (h : |v| < 10 ^ (EMAX + 1)) : decOverflows v = false := by
  unfold decOverflows
  rw [decide_eq_false_iff_not]
  exact not_le.mpr h

/-- A magnitude at or above the overflow bound traps. -/
lemma decOverflows_eq_true {v : ℚ} (h : 10 ^ (EMAX + 1) ≤ |v|) : decOverflows v = true := by
  unfold decOverflows
  rw [decide_eq_true_eq]
  exact h

/-- The quotient by a nonnegative power of ten is no larger in magnitude. -/
lemma abs_div_ten_pow_le (a : ℚ) (d : ℕ) : |a / 10 ^ d| ≤ |a| := by
  rw [abs_div, show |(10 : ℚ) ^ d| = 10 ^ d from abs_of_pos (by positivity)]
  exact div_le_self (abs_nonneg a) (one_le_pow₀ (by norm_num))

/-! ## Theorems -/

/-- **C1.** The overflow policy claimed by the spec (and asserted by the
repository's own tests `test_chain.py::test_calculate_apr_apy_*`, which call
helpers `_calculate_apr_apy` / `_apr_to_apy` that `chain.py` never defines)
does not hold: at the test suite's own input `rewardRate = 10^40`,
`totalStaked = 1`, both decimals 18, the computed `apr ≈ 3.15×10^47` is a
finite float and the unguarded `math.exp(apr)` raises `OverflowError`; and at
`rewardRate = 10^400` both `apr` and `apy` come out as `inf`, not `null`. -/
theorem c1_mining_overflow_raises :
    mining_apr_apy (some (10 ^ 40)) (some 1) (some 18) (some 18) = .expRaised
    ∧ mining_apr_apy (some (10 ^ 400)) (some 1) (some 18) (some 18) = .overflowInf := by
  constructor <;>
  · simp only [mining_apr_apy, SECONDS_PER_YEAR, FLOAT_INF_BOUND, EXP_OVERFLOW_BOUND]
    norm_num

/-- **C7 counterexample.** At the spec's example pool (`rewardRate = 10^18`
per second, `rewardsDecimals = stakingDecimals = 18`, `totalStaked = 10^24`)
the code computes `apr = 31536000 / 10^6 = 31.536`, which is not within any
reasonable tolerance of the claimed `0.315`. -/
theorem c7_apr_is_31536_counterexample :
    mining_apr_apy (some (10 ^ 18)) (some (10 ^ 24)) (some 18) (some 18)
      = .computed (3942 / 125)
    ∧ ¬ |(3942 / 125 : ℚ) - 315 / 1000| ≤ 1 / 2 := by
  constructor
  · simp only [mining_apr_apy, SECONDS_PER_YEAR, FLOAT_INF_BOUND, EXP_OVERFLOW_BOUND]
    norm_num
  · rw [abs_le]
    norm_num

/-- **C7 amended.** For the example pool the computed `apr` is exactly
`31.536` (= 3942/125; the code then rounds it to the nearest double) and
`apy = exp(31.536) - 1` lies between `10^13` and `10^14`
(numerically `≈ 4.96 × 10^13`), not near `0.370`. -/
theorem c7_apr_apy_amended :
    mining_apr_apy (some (10 ^ 18)) (some (10 ^ 24)) (some 18) (some 18)
      = .computed (3942 / 125)
    ∧ (10 : ℝ) ^ 13 < Real.exp ((3942 / 125 : ℚ) : ℝ) - 1
    ∧ Real.exp ((3942 / 125 : ℚ) : ℝ) - 1 < (10 : ℝ) ^ 14 := by
  have hx : ((3942 / 125 : ℚ) : ℝ) = (1024 : ℕ) * ((1971 : ℝ) / 64000) := by
    push_cast
    norm_num
  have hlow : ((65971 : ℝ) / 64000) ^ (1024 : ℕ) ≤ Real.exp ((3942 / 125 : ℚ) : ℝ) := by
    rw [hx, Real.exp_nat_mul]
    refine pow_le_pow_left₀ (by norm_num) ?_ _
    have h := Real.add_one_le_exp ((1971 : ℝ) / 64000)
    linarith
  have hlow2 : (10 : ℝ) ^ 13 + 1 < ((65971 : ℝ) / 64000) ^ (1024 : ℕ) := by
    rw [div_pow, lt_div_iff₀ (by positivity)]
    norm_num
  have hneg : ((62029 : ℝ) / 64000) ^ (1024 : ℕ) ≤ Real.exp (-((3942 / 125 : ℚ) : ℝ)) := by
    rw [hx, ← mul_neg, Real.exp_nat_mul]
    refine pow_le_pow_left₀ (by norm_num) ?_ _
    have h := Real.add_one_le_exp (-((1971 : ℝ) / 64000))
    linarith
  have hup : Real.exp ((3942 / 125 : ℚ) : ℝ) ≤ ((64000 : ℝ) / 62029) ^ (1024 : ℕ) := by
    rw [Real.exp_neg] at hneg
    have hpos : (0 : ℝ) < ((62029 : ℝ) / 64000) ^ (1024 : ℕ) := by positivity
    have h2 := inv_anti₀ hpos hneg
    rwa [inv_inv, ← inv_pow, inv_div] at h2
  have hup2 : ((64000 : ℝ) / 62029) ^ (1024 : ℕ) < (10 : ℝ) ^ 14 := by
    rw [div_pow, div_lt_iff₀ (by positivity)]
    norm_num
  refine ⟨?_, by linarith, by linarith⟩
  simp only [mining_apr_apy, SECONDS_PER_YEAR, FLOAT_INF_BOUND, EXP_OVERFLOW_BOUND]
  norm_num

/-- **C3 counterexample.** With no usable deployment trace and a readable
static config that contains neither a comptroller nor a price oracle, the
claim requires resolution to fail; the code's `if configured: return
configured` accepts any parsed config dict (a dict is truthy), so resolution
succeeds with both mandatory addresses `None`. -/
theorem c3_config_without_mandatory_is_accepted :
    load_addresses true [] (some ⟨none, [], [], none, none, none⟩)
        = .ok ⟨none, [], [], none, none, none⟩
    ∧ load_addresses true [] (some ⟨none, [], [], none, none, none⟩) ≠ .error () := by
  constructor
  · rfl
  · intro h
    simp [load_addresses, discovered_best] at h

/-- **C3 amended.** `load_addresses` fails (with the spec's
`ResolutionError`) iff the static config is absent or unreadable AND the
trace path yields no accepted candidate — auto-discovery disabled, no
parseable trace, or a best-scoring trace lacking a truthy comptroller or
price oracle.  A readable config is returned as-is, even without the
mandatory addresses. -/
theorem c3_resolution_failure_iff (autoDiscover : Bool)
    (candidates : List (Option Addresses)) (config : Option Addresses) :
    load_addresses autoDiscover candidates config = .error () ↔
      config = none ∧
        (autoDiscover = false ∨
          ∀ b, discovered_best candidates = some b →
            (truthy b.comptroller && truthy b.priceOracle) = false) := by
  cases autoDiscover with
  | false =>
    cases config with
    | none => simp [load_addresses]
    | some c => simp [load_addresses]
  | true =>
    cases hbest : discovered_best candidates with
    | none =>
      cases config with
      | none => simp [load_addresses, hbest]
      | some c => simp [load_addresses, hbest]
    | some b =>
      by_cases htr : (truthy b.comptroller && truthy b.priceOracle) = true
      · cases config with
        | none => simp_all [load_addresses, hbest]
        | some c => simp_all [load_addresses, hbest]
      · have hcond : ¬(truthy b.comptroller = true ∧ truthy b.priceOracle = true) := by
          intro hc
          exact htr (by rw [hc.1, hc.2]; rfl)
        rw [Bool.not_eq_true] at htr
        cases config with
        | none =>
          simp [load_addresses, hbest, hcond, htr]
          intro h1
          cases hp : truthy b.priceOracle
          · rfl
          · rw [h1, hp] at htr
            simp at htr
        | some c => simp [load_addresses, hbest, hcond, htr]

/-- **C5 counterexample.** Two implementations named `Comptroller`
(`0xImplA`, `0xImplB`) where only `0xImplA` has a proxy: the claim says the
proxy-less implementation `0xImplB` is still returned for the role, but
`addresses_for` falls back to implementations only when the combined proxy
list is empty, so `0xImplB` is dropped. -/
theorem c5_proxyless_sibling_dropped :
    addresses_for
        [⟨some "Comptroller", some "0xImplA", []⟩,
         ⟨some "Comptroller", some "0xImplB", []⟩,
         ⟨some "ERC1967Proxy", some "0xProxyA", [some "0xImplA"]⟩]
        "Comptroller" = ["0xProxyA"]
    ∧ "0xImplB" ∉ addresses_for
        [⟨some "Comptroller", some "0xImplA", []⟩,
         ⟨some "Comptroller", some "0xImplB", []⟩,
         ⟨some "ERC1967Proxy", some "0xProxyA", [some "0xImplA"]⟩]
        "Comptroller" := by
  constructor
  · rfl
  · intro h
    rw [show addresses_for
        [⟨some "Comptroller", some "0xImplA", []⟩,
         ⟨some "Comptroller", some "0xImplB", []⟩,
         ⟨some "ERC1967Proxy", some "0xProxyA", [some "0xImplA"]⟩]
        "Comptroller" = ["0xProxyA"] from rfl] at h
    simp at h

/-- **C5 amended.** For a role name with exactly one implementation record,
resolution returns that implementation's proxies when any exist — the proxy
addresses, never the implementation address — and falls back to the
implementation address itself when it has none; when several implementations
share the name, an implementation without a proxy is omitted whenever any
sibling has one (see the counterexample). -/
theorem c5_single_impl_resolution (creates : List CreateTx) (name A : String)
    (h : impls_by_name creates name = [A]) :
    addresses_for creates name =
      if proxies_by_impl creates (lowerStr A) = [] then [A]
      else proxies_by_impl creates (lowerStr A) := by
  unfold addresses_for
  rw [h]
  simp

/-- Witness for `c5_single_impl_resolution`: a trace with one `Comptroller`
implementation at `0xImplA` and one proxy record for it; resolution returns
the proxy address. -/
theorem c5_single_impl_resolution_witness :
    addresses_for
        [⟨some "Comptroller", some "0xImplA", []⟩,
         ⟨some "ERC1967Proxy", some "0xProxy", [some "0xImplA"]⟩]
        "Comptroller" = ["0xProxy"] := by
  have h := c5_single_impl_resolution
      [⟨some "Comptroller", some "0xImplA", []⟩,
       ⟨some "ERC1967Proxy", some "0xProxy", [some "0xImplA"]⟩]
      "Comptroller" "0xImplA" (by rfl)
  rw [h]
  rfl

/-- **C8 counterexample.** `_format_usd` is not total: at the integer value
`10^50` (well below 256-bit magnitude once USD-scaled figures are involved)
the 6-decimal-place `quantize` needs a 57-digit coefficient, exceeding the
50-digit context precision, and raises `decimal.InvalidOperation`. -/
theorem c8_format_usd_not_total :
    _format_usd (some (10 ^ 50)) = .error () := by
  have h : roundHalfEven ((10 ^ 50 : ℚ) * 10 ^ 6) = 10 ^ 56 := by
    rw [show ((10 ^ 50 : ℚ) * 10 ^ 6) = ((10 ^ 56 : ℤ) : ℚ) by norm_num]
    exact roundHalfEven_intCast _
  simp only [_format_usd, h]
  rw [if_pos]
  norm_num [PREC_LIMIT]

/-- **C8 amended.** Every DecimalMath helper propagates `None`: it returns
`None` (without raising) whenever any input is `None`.  Raising is confined
to the `Decimal` context traps, characterized exactly: `_format_usd` raises
`InvalidOperation` iff the 6-place quantized coefficient needs more than the
50 context digits (so it is total on `|v| ≤ 10^44 - 1`, which covers all
genuinely price-scaled figures but not raw 256-bit magnitudes), and each
arithmetic helper raises `Overflow` iff `Decimal(10) ** decimals` passes
`Emax = 999999` or an intermediate quotient or product reaches magnitude
`10^(Emax+1)` — which a bare `10^1000050` amount does — while every 256-bit
on-chain input (`|amount|, |price| ≤ 10^78`, `decimals ≤ 255`) converts
without raising. -/
theorem c8_conversions_total_and_none_propagating :
    _to_decimal none = none
    ∧ _format_usd none = .ok none
    ∧ (∀ d p, _amount_to_usd none d p = .ok none)
    ∧ (∀ a p, _amount_to_usd a none p = .ok none)
    ∧ (∀ a d, _amount_to_usd a d none = .ok none)
    ∧ _price_to_usd none = .ok none
    ∧ _rate_to_decimal none = .ok none
    ∧ _decimal_to_pct none = .ok none
    ∧ (∀ q, _to_float none q = .ok none)
    ∧ (∀ d, _amount_to_token none d = .ok none)
    ∧ (∀ a, _amount_to_token a none = .ok none)
    ∧ (∀ q, _wad_to_float none q = .ok none)
    ∧ (∀ a : ℤ, ∀ d : ℕ, ∀ p : ℤ, d ≤ EMAX →
        decOverflows ((a : ℚ) / 10 ^ d) = false →
        decOverflows ((p : ℚ) / PRICE_DECIMALS) = false →
        decOverflows ((a : ℚ) / 10 ^ d * ((p : ℚ) / PRICE_DECIMALS)) = false →
        _amount_to_usd (some a) (some d) (some p)
          = .ok (some ((a : ℚ) / 10 ^ d * ((p : ℚ) / PRICE_DECIMALS))))
    ∧ (∀ a : ℤ, ∀ d : ℕ, ∀ p : ℤ,
        _amount_to_usd (some a) (some d) (some p) = .error ()
          ↔ EMAX < d ∨ decOverflows ((a : ℚ) / 10 ^ d) = true
            ∨ decOverflows ((p : ℚ) / PRICE_DECIMALS) = true
            ∨ decOverflows ((a : ℚ) / 10 ^ d * ((p : ℚ) / PRICE_DECIMALS)) = true)
    ∧ (∀ a : ℤ, ∀ d : ℕ, ∀ p : ℤ, |(a : ℚ)| ≤ 10 ^ 78 → d ≤ 255 → |(p : ℚ)| ≤ 10 ^ 78 →
        _amount_to_usd (some a) (some d) (some p)
          = .ok (some ((a : ℚ) / 10 ^ d * ((p : ℚ) / PRICE_DECIMALS))))
    ∧ (∀ p : ℤ, _price_to_usd (some p) = .error ()
        ↔ decOverflows ((p : ℚ) / PRICE_DECIMALS) = true)
    ∧ (∀ r : ℤ, _rate_to_decimal (some r) = .error ()
        ↔ decOverflows ((r : ℚ) / WAD) = true)
    ∧ (∀ v : ℚ, _decimal_to_pct (some v) = .error ()
        ↔ decOverflows (v * 100) = true)
    ∧ (∀ a : ℤ, ∀ d : ℕ, _amount_to_token (some a) (some d) = .error ()
        ↔ EMAX < d ∨ decOverflows ((a : ℚ) / 10 ^ d) = true)
    ∧ (∀ v : ℤ, _wad_to_float (some v) none = .error ()
        ↔ decOverflows ((v : ℚ) / WAD) = true)
    ∧ (∀ v : ℚ, _format_usd (some v) = .error ()
        ↔ PREC_LIMIT ≤ (roundHalfEven (v * 10 ^ 6)).natAbs)
    ∧ (∀ v : ℚ, |v| ≤ 10 ^ 44 - 1 →
        _format_usd (some v) = .ok (some ((roundHalfEven (v * 10 ^ 6) : ℚ) / 10 ^ 6))) := by
  have hsucc : ∀ a : ℤ, ∀ d : ℕ, ∀ p : ℤ, d ≤ EMAX →
      decOverflows ((a : ℚ) / 10 ^ d) = false →
      decOverflows ((p : ℚ) / PRICE_DECIMALS) = false →
      decOverflows ((a : ℚ) / 10 ^ d * ((p : ℚ) / PRICE_DECIMALS)) = false →
      _amount_to_usd (some a) (some d) (some p)
        = .ok (some ((a : ℚ) / 10 ^ d * ((p : ℚ) / PRICE_DECIMALS))) := by
    intro a d p hd h1 h2 h3
    simp only [_amount_to_usd, h1, h2, h3]
    rw [if_neg (not_lt.mpr hd)]
    simp
  refine ⟨rfl, rfl, ?_, ?_, ?_, rfl, rfl, rfl, ?_, ?_, ?_, ?_, hsucc, ?_, ?_, ?_, ?_, ?_, ?_,
    ?_, ?_, ?_⟩
  · intro d p
    cases d <;> cases p <;> rfl
  · intro a p
    cases a <;> cases p <;> rfl
  · intro a d
    cases a <;> cases d <;> rfl
  · intro q
    rfl
  · intro d
    cases d <;> rfl
  · intro a
    cases a <;> rfl
  · intro q
    rfl
  · -- error characterization of `_amount_to_usd`
    intro a d p
    by_cases hd : EMAX < d
    · simp [_amount_to_usd, hd]
    · cases h1 : decOverflows ((a : ℚ) / 10 ^ d) <;>
        cases h2 : decOverflows ((p : ℚ) / PRICE_DECIMALS) <;>
        cases h3 : decOverflows ((a : ℚ) / 10 ^ d * ((p : ℚ) / PRICE_DECIMALS)) <;>
        simp [_amount_to_usd, hd, h1, h2, h3]
  · -- 256-bit regime: none of the three Overflow conditions fires
    intro a d p ha hd hp
    have hb : ∀ w : ℚ, |w| ≤ 10 ^ 78 → |w| < 10 ^ (EMAX + 1) := by
      intro w hw
      calc |w| ≤ 10 ^ 78 := hw
        _ < 10 ^ (EMAX + 1) := by
          have h78 : (78 : ℕ) < EMAX + 1 := by norm_num [EMAX]
          exact pow_lt_pow_right₀ (by norm_num) h78
    have h1 : decOverflows ((a : ℚ) / 10 ^ d) = false :=
      decOverflows_eq_false (hb _ (le_trans (abs_div_ten_pow_le _ d) ha))
    have h2 : decOverflows ((p : ℚ) / PRICE_DECIMALS) = false := by
      refine decOverflows_eq_false (hb _ ?_)
      exact le_trans (abs_div_ten_pow_le (p : ℚ) 8) hp
    have h3 : decOverflows ((a : ℚ) / 10 ^ d * ((p : ℚ) / PRICE_DECIMALS)) = false := by
      apply decOverflows_eq_false
      have hqa : |(a : ℚ) / 10 ^ d| ≤ 10 ^ 78 := le_trans (abs_div_ten_pow_le _ d) ha
      have hqp : |(p : ℚ) / PRICE_DECIMALS| ≤ 10 ^ 78 :=
        le_trans (abs_div_ten_pow_le (p : ℚ) 8) hp
      calc |(a : ℚ) / 10 ^ d * ((p : ℚ) / PRICE_DECIMALS)|
          = |(a : ℚ) / 10 ^ d| * |(p : ℚ) / PRICE_DECIMALS| := abs_mul _ _
        _ ≤ 10 ^ 78 * 10 ^ 78 :=
            mul_le_mul hqa hqp (abs_nonneg _) (by positivity)
        _ = 10 ^ 156 := by ring
        _ < 10 ^ (EMAX + 1) := by
            have h156 : (156 : ℕ) < EMAX + 1 := by norm_num [EMAX]
            exact pow_lt_pow_right₀ (by norm_num) h156
    exact hsucc a d p (le_trans hd (by norm_num [EMAX])) h1 h2 h3
  · -- error characterization of `_price_to_usd`
    intro p
    cases h : decOverflows ((p : ℚ) / PRICE_DECIMALS) <;> simp [_price_to_usd, h]
  · -- error characterization of `_rate_to_decimal`
    intro r
    cases h : decOverflows ((r : ℚ) / WAD) <;> simp [_rate_to_decimal, h]
  · -- error characterization of `_decimal_to_pct`
    intro v
    cases h : decOverflows (v * 100) <;> simp [_decimal_to_pct, h]
  · -- error characterization of `_amount_to_token`
    intro a d
    by_cases hd : EMAX < d
    · simp [_amount_to_token, hd]
    · cases h1 : decOverflows ((a : ℚ) / 10 ^ d) <;>
        simp [_amount_to_token, _to_float, hd, h1]
  · -- error characterization of the unquantized `_wad_to_float`
    intro v
    cases h : decOverflows ((v : ℚ) / WAD) <;> simp [_wad_to_float, _to_float, h]
  · intro v
    simp only [_format_usd]
    by_cases hc : PREC_LIMIT ≤ (roundHalfEven (v * 10 ^ 6)).natAbs
    · rw [if_pos hc]
      simp [hc]
    · rw [if_neg hc]
      simp [hc]
  · intro v hv
    simp only [_format_usd]
    rw [if_neg (not_le.mpr (roundHalfEven_natAbs_lt v hv))]

/-- Witness for `c8_conversions_total_and_none_propagating`: the value `123`
is within the precision-safe range, and `_format_usd` succeeds on it. -/
theorem c8_conversions_witness :
    _format_usd (some 123) = .ok (some ((roundHalfEven ((123 : ℚ) * 10 ^ 6) : ℚ) / 10 ^ 6)) := by
  obtain ⟨-, -, -, -, -, -, -, -, -, -, -, -, -, -, -, -, -, -, -, -, -, h⟩ :=
    c8_conversions_total_and_none_propagating
  exact h 123 (by norm_num)

/-- **C2 counterexample.** A market whose `totalReserves` call fails (all
other reads succeeding) does not get `null` in the fields depending on it:
the code requests the read with `default=0`, so the output `totalReserves`
is `0` — zero and unknown are conflated exactly where the claim says they
never are. -/
theorem c2_failed_reserves_read_reports_zero :
    (get_market_view
      { symbol := some "USDC", decimals := some 6, totalSupply := some 1000000,
        totalBorrows := some 500000, totalReserves := none, cash := some 700000,
        exchangeRate := some (10 ^ 18), reserveFactor := some 0, hasRateModel := true,
        borrowRatePerYearCall := some 0, supplyRatePerYearCall := some 0,
        borrowRatePerSecondCall := none, supplyRatePerSecondCall := none,
        secondsPerYearCall := none, collateralFactor := some 0, isListed := some true,
        price := some (10 ^ 8) }).totalReserves = some 0 := by
  norm_num [get_market_view, token_units]

/-- **C2 amended.** In `get_markets`, every numeric output depending on a
failed read is `null` — with the deliberate exception of the
`totalReserves` and `reserveFactorMantissa` reads, which are requested with
`default=0` and make the row compute exactly as if the chain had returned
zero. -/
theorem c2_null_propagation_amended (r : MarketReads) :
    (r.totalSupply = none ∨ r.exchangeRate = none →
        (get_market_view r).totalSupply = none ∧ (get_market_view r).totalSupplyUsd = none)
    ∧ (r.totalBorrows = none →
        (get_market_view r).totalBorrows = none ∧ (get_market_view r).totalBorrowsUsd = none
          ∧ (get_market_view r).utilization = none
          ∧ (get_market_view r).borrowRatePerYear = none
          ∧ (get_market_view r).supplyRatePerYear = none)
    ∧ (r.cash = none →
        (get_market_view r).cash = none ∧ (get_market_view r).utilization = none
          ∧ (get_market_view r).borrowRatePerYear = none
          ∧ (get_market_view r).supplyRatePerYear = none)
    ∧ (r.decimals = none →
        (get_market_view r).totalSupply = none ∧ (get_market_view r).totalSupplyUsd = none
          ∧ (get_market_view r).totalBorrows = none ∧ (get_market_view r).totalBorrowsUsd = none
          ∧ (get_market_view r).totalReserves = none ∧ (get_market_view r).cash = none)
    ∧ (r.price = none →
        (get_market_view r).totalSupplyUsd = none ∧ (get_market_view r).totalBorrowsUsd = none
          ∧ (get_market_view r).price = none)
    ∧ (r.exchangeRate = none → (get_market_view r).exchangeRate = none)
    ∧ (r.collateralFactor = none → (get_market_view r).collateralFactor = none)
    ∧ (r.totalReserves = none →
        get_market_view r = get_market_view { r with totalReserves := some 0 })
    ∧ (r.reserveFactor = none →
        get_market_view r = get_market_view { r with reserveFactor := some 0 }) := by
  obtain ⟨sym, dec, ts, tb, tr, ca, ex, rf, hrm, bry, sry, brs, srs, spy, cf, il, pr⟩ := r
  refine ⟨?_, ?_, ?_, ?_, ?_, ?_, ?_, ?_, ?_⟩
  · rintro (h | h) <;> subst h
    · simp [get_market_view, supply_underlying_of, supply_underlying_raw, usd_units]
    · cases ts <;>
        simp [get_market_view, supply_underlying_of, supply_underlying_raw, usd_units]
  · rintro h
    subst h
    cases ca <;>
      simp [get_market_view, token_units, usd_units, utilization_of, borrow_rate_year,
        supply_rate_year, rates_guard]
  · rintro h
    subst h
    simp [get_market_view, token_units, utilization_of, borrow_rate_year,
      supply_rate_year, rates_guard]
  · rintro h
    subst h
    cases ts <;> cases ex <;> cases tb <;> cases ca <;>
      simp [get_market_view, token_units, usd_units, supply_underlying_of,
        supply_underlying_raw]
  · rintro h
    subst h
    cases ts <;> cases ex <;> cases tb <;> cases dec <;>
      simp [get_market_view, usd_units, supply_underlying_of, supply_underlying_raw]
  · rintro h
    subst h
    simp [get_market_view]
  · rintro h
    subst h
    simp [get_market_view]
  · rintro h
    subst h
    rfl
  · rintro h
    subst h
    rfl

/-- **C6 counterexample.** A market with a supply figure but missing
`collateralFactor` and `supplyRatePerYear` (figures required for the
collateral- and yield-weighted products) is NOT skipped from every sum as
the claim requires: it still contributes its full supply to the supply sum,
and the missing factors are treated as zero in the weighted sums. -/
theorem c6_market_with_missing_figures_still_counted :
    get_markets_summary [⟨some 100, none, none, none⟩] = ⟨100, 0, 0, 0⟩
    ∧ get_markets_summary [⟨some 100, none, none, none⟩] ≠ get_markets_summary [] := by
  have h : get_markets_summary [⟨some 100, none, none, none⟩] = ⟨100, 0, 0, 0⟩ := by
    simp [get_markets_summary, summary_step]
  refine ⟨h, ?_⟩
  rw [h, show get_markets_summary [] = ⟨0, 0, 0, 0⟩ from rfl]
  intro hc
  rw [MarketsSummary.mk.injEq] at hc
  norm_num at hc

/-- **C6 amended.** `getMarketsSummary` returns the four sums over the
markets list where a market missing its USD total supply contributes nothing
to the supply, collateral and earning sums and one missing its USD total
borrow contributes nothing to the borrow sum; a missing `collateralFactor`
or `supplyRatePerYear` does not remove the market — it is treated as zero in
the corresponding weighted sum only. -/
theorem c6_summary_sums (ms : List MarketRow) :
    get_markets_summary ms =
      ⟨(ms.map row_supply_usd).sum, (ms.map row_earning_usd).sum,
       (ms.map row_borrow_usd).sum, (ms.map row_collateral_usd).sum⟩ := by
  unfold get_markets_summary
  rw [foldl_summary_step]
  simp

/-- **C4 counterexample.** One position with zero supply and a nonzero
borrow (500 units at price $1): the total borrow USD is 500 > 0 and the
health factor is `0`, which is not positive — refuting "positive and finite
for every set of positions with at least one nonzero borrow". -/
theorem c4_health_factor_zero_not_positive :
    health_factor [⟨some 0, some 500, some 1, some (4 / 5), none, none⟩] = some 0
    ∧ ¬ (0 : ℚ) < 0 := by
  refine ⟨?_, lt_irrefl 0⟩
  norm_num [health_factor, account_totals, account_step, _token_to_usd_from_price_usd]

/-- **C4 amended.** The health factor of `get_account` equals
`Σ(supplyUSD × collateralFactor) / Σ(borrowUSD)`, is `null` exactly when the
total borrow USD is zero, and is nonnegative (zero when the account has no
risk-weighted collateral) and finite otherwise — not strictly positive. -/
theorem c4_health_factor_formula (ps : List AccountPos)
    (hnn : ∀ p ∈ ps, 0 ≤ pos_collateral_usd p ∧ 0 ≤ pos_borrow_usd p) :
    health_factor ps =
      (if (ps.map pos_borrow_usd).sum = 0 then none
       else some ((ps.map pos_collateral_usd).sum / (ps.map pos_borrow_usd).sum))
    ∧ ∀ q, health_factor ps = some q → 0 ≤ q := by
  have hbnn : 0 ≤ (ps.map pos_borrow_usd).sum :=
    List.sum_nonneg (by
      intro x hx
      obtain ⟨p, hp, rfl⟩ := List.mem_map.mp hx
      exact (hnn p hp).2)
  have hcnn : 0 ≤ (ps.map pos_collateral_usd).sum :=
    List.sum_nonneg (by
      intro x hx
      obtain ⟨p, hp, rfl⟩ := List.mem_map.mp hx
      exact (hnn p hp).1)
  have hmain : health_factor ps =
      (if (ps.map pos_borrow_usd).sum = 0 then none
       else some ((ps.map pos_collateral_usd).sum / (ps.map pos_borrow_usd).sum)) := by
    unfold health_factor
    rw [account_totals_eq]
    by_cases hz : (ps.map pos_borrow_usd).sum = 0
    · rw [if_neg (by simp [hz]), if_pos hz]
    · rw [if_pos (lt_of_le_of_ne hbnn (Ne.symm hz)), if_neg hz]
  refine ⟨hmain, ?_⟩
  intro q hq
  rw [hmain] at hq
  by_cases hz : (ps.map pos_borrow_usd).sum = 0
  · rw [if_pos hz] at hq
    exact absurd hq (by simp)
  · rw [if_neg hz] at hq
    obtain rfl : (ps.map pos_collateral_usd).sum / (ps.map pos_borrow_usd).sum = q :=
      Option.some.injEq _ _ ▸ (by simpa using hq)
    exact div_nonneg hcnn hbnn

/-- Witness for `c4_health_factor_formula`: the spec's §8 example — one
position, supply 1000 units at price $1.00, collateral factor 0.8, borrow
500 units at price $1.00 — yields health factor 800 / 500 = 1.6. -/
theorem c4_health_factor_formula_witness :
    health_factor [⟨some 1000, some 500, some 1, some (4 / 5), none, none⟩] =
      (if (List.map pos_borrow_usd [⟨some 1000, some 500, some 1, some (4 / 5), none, none⟩]).sum = 0
       then none
       else some ((List.map pos_collateral_usd
            [⟨some 1000, some 500, some 1, some (4 / 5), none, none⟩]).sum /
          (List.map pos_borrow_usd
            [⟨some 1000, some 500, some 1, some (4 / 5), none, none⟩]).sum))
    ∧ health_factor [⟨some 1000, some 500, some 1, some (4 / 5), none, none⟩] = some (8 / 5) := by
  have h := c4_health_factor_formula
      [⟨some 1000, some 500, some 1, some (4 / 5), none, none⟩]
      (by
        intro p hp
        rw [List.mem_singleton] at hp
        subst hp
        norm_num [pos_collateral_usd, pos_borrow_usd, _token_to_usd_from_price_usd])
  refine ⟨h.1, ?_⟩
  rw [h.1]
  norm_num [pos_collateral_usd, pos_borrow_usd, _token_to_usd_from_price_usd]

/-- **C9.** `netSupplyAPR` is the supply-USD-weighted average of the
positions' supply APRs and `netBorrowAPR` the borrow-USD-weighted average of
their borrow APRs (positions whose USD value is unavailable carry no weight,
an unavailable rate is weighted as zero), and each average is zero — not
null — whenever the corresponding total weight is zero. -/
theorem c9_weighted_average_aprs (ps : List AccountPos)
    (hnn : ∀ p ∈ ps, 0 ≤ pos_supply_usd p ∧ 0 ≤ pos_borrow_usd p) :
    net_aprs ps =
      ((if (ps.map pos_supply_usd).sum = 0 then 0
        else (ps.map pos_supply_weighted_rate).sum / (ps.map pos_supply_usd).sum),
       (if (ps.map pos_borrow_usd).sum = 0 then 0
        else (ps.map pos_borrow_weighted_rate).sum / (ps.map pos_borrow_usd).sum)) := by
  have hs : 0 ≤ (ps.map pos_supply_usd).sum :=
    List.sum_nonneg (by
      intro x hx
      obtain ⟨p, hp, rfl⟩ := List.mem_map.mp hx
      exact (hnn p hp).1)
  have hb : 0 ≤ (ps.map pos_borrow_usd).sum :=
    List.sum_nonneg (by
      intro x hx
      obtain ⟨p, hp, rfl⟩ := List.mem_map.mp hx
      exact (hnn p hp).2)
  unfold net_aprs
  rw [overview_totals_eq]
  dsimp only
  congr 1
  · by_cases hz : (ps.map pos_supply_usd).sum = 0
    · rw [if_neg (by simp [hz]), if_pos hz]
    · rw [if_pos (lt_of_le_of_ne hs (Ne.symm hz)), if_neg hz]
  · by_cases hz : (ps.map pos_borrow_usd).sum = 0
    · rw [if_neg (by simp [hz]), if_pos hz]
    · rw [if_pos (lt_of_le_of_ne hb (Ne.symm hz)), if_neg hz]

/-- Witness for `c9_weighted_average_aprs`: two positions with supply USD
100 and 300 at rates 5% and 10% give `netSupplyAPR = 35/400 = 7/80`; both
borrow balances are zero, so the borrow weight total is zero and
`netBorrowAPR` is zero. -/
theorem c9_weighted_average_aprs_witness :
    net_aprs
        [⟨some 100, some 0, some 1, none, some (1 / 20), some 0⟩,
         ⟨some 300, some 0, some 1, none, some (1 / 10), some 0⟩]
      = (7 / 80, 0) := by
  have h := c9_weighted_average_aprs
      [⟨some 100, some 0, some 1, none, some (1 / 20), some 0⟩,
       ⟨some 300, some 0, some 1, none, some (1 / 10), some 0⟩]
      (by
        intro p hp
        rcases List.mem_cons.mp hp with rfl | hp
        · norm_num [pos_supply_usd, pos_borrow_usd, _token_to_usd_from_price_usd]
        · rw [List.mem_singleton] at hp
          subst hp
          norm_num [pos_supply_usd, pos_borrow_usd, _token_to_usd_from_price_usd])
  rw [h]
  norm_num [pos_supply_usd, pos_borrow_usd, pos_supply_weighted_rate,
    pos_borrow_weighted_rate, _token_to_usd_from_price_usd]

/-- **C10.** In `get_wallet_balances` with a non-empty assets filter, a
filter entry that neither matches a known market symbol (case-insensitively)
nor passes the raw-address check is silently dropped wherever it occurs in
the filter: the selection and the balances list are exactly those of the
filter without that entry — no error, no placeholder row — and consequently
a filter consisting only of such entries yields an empty balances list. -/
theorem c10_unknown_filter_entries_omitted (m : List (String × String))
    (isAddr : String → Bool) (symbolOf : String → Option String)
    (decimalsOf : String → Option ℕ) (balanceOf : String → Option ℤ)
    (priceOf : String → Option ℤ) (a : String) (pre post : List String)
    (ha : lookup_last m (upperStr a) = none) (ha2 : isAddr a = false) :
    select_assets m isAddr (pre ++ a :: post) = select_assets m isAddr (pre ++ post)
    ∧ get_wallet_balances m isAddr symbolOf decimalsOf balanceOf priceOf (pre ++ a :: post)
        = get_wallet_balances m isAddr symbolOf decimalsOf balanceOf priceOf (pre ++ post)
    ∧ ((∀ b ∈ pre ++ post, lookup_last m (upperStr b) = none ∧ isAddr b = false) →
        get_wallet_balances m isAddr symbolOf decimalsOf balanceOf priceOf (pre ++ a :: post)
          = []) := by
  have hdropa : select_assets m isAddr (pre ++ a :: post)
      = select_assets m isAddr (pre ++ post) := by
    simp [select_assets, List.flatMap_append, List.flatMap_cons, ha, ha2]
  have hdrop : ∀ l : List String,
      (∀ b ∈ l, lookup_last m (upperStr b) = none ∧ isAddr b = false) →
      select_assets m isAddr l = [] := by
    intro l
    induction l with
    | nil => intro _; rfl
    | cons x xs ih =>
      intro hl
      have hx := hl x (by simp)
      have hrest := ih fun b hb => hl b (by simp [hb])
      simp only [select_assets] at hrest ⊢
      rw [List.flatMap_cons, hrest, List.append_nil, hx.1]
      simp [hx.2]
  refine ⟨hdropa, ?_, ?_⟩
  · unfold get_wallet_balances
    rw [hdropa]
  · intro hall
    unfold get_wallet_balances
    rw [hdropa, hdrop _ hall]
    rfl

/-- Witness for `c10_unknown_filter_entries_omitted`, on a mixed filter:
with the known market symbol `USDC` and an address check rejecting
everything, the filter `["USDC", "FOO"]` selects exactly what `["USDC"]`
selects — the unknown entry `FOO` is dropped with no placeholder. -/
theorem c10_unknown_filter_entries_omitted_witness :
    select_assets [("USDC", "0xusdc")] (fun _ => false) ["USDC", "FOO"]
        = select_assets [("USDC", "0xusdc")] (fun _ => false) ["USDC"]
    ∧ get_wallet_balances [("USDC", "0xusdc")] (fun _ => false)
        (fun _ => none) (fun _ => none) (fun _ => none) (fun _ => none) ["USDC", "FOO"]
        = get_wallet_balances [("USDC", "0xusdc")] (fun _ => false)
            (fun _ => none) (fun _ => none) (fun _ => none) (fun _ => none) ["USDC"]
    ∧ select_assets [("USDC", "0xusdc")] (fun _ => false) ["USDC", "FOO"]
        = [("USDC", "0xusdc")] := by
  have h := c10_unknown_filter_entries_omitted [("USDC", "0xusdc")] (fun _ => false)
      (fun _ => none) (fun _ => none) (fun _ => none) (fun _ => none) "FOO" ["USDC"] []
      (by rfl) rfl
  refine ⟨?_, ?_, ?_⟩
  · simpa using h.1
  · simpa using h.2.1
  · rfl
